import Mathlib

/-!
Shallow embedding of `src/pdf_file_compressor.py` (class `PDFCompressor`).

The program re-encodes the raster images embedded in a PDF at a lower
quality and rebuilds each page.  The external collaborators (PyMuPDF /
`fitz` for the PDF object model, PIL for image codecs, the filesystem)
are modelled as oracles packed into a `World` / `Codec` value; the
control flow of `compress_image` and `compress_pdf`, including the
Python `try`/`except` boundaries, is translated directly.

Modelled library semantics (from PyMuPDF / PIL documentation and source):
  * a `fitz.Rect` is falsy exactly when all four coordinates are zero
    (`Rect.__bool__` is `not (max(self) == min(self) == 0)`);
  * `Rect.is_empty` holds when `x1 <= x0` or `y1 <= y0`; the sentinel
    "infinite" rectangle `Rect(1, 1, -1, -1)` is what `get_image_bbox`
    returns for an image whose placement cannot be determined;
  * `Page.insert_image(rect, ...)` raises `ValueError` when the rect is
    empty or infinite;
  * `PIL.Image` color modes carrying an alpha band are `RGBA`, `LA`,
    `PA`, `RGBa`, `La`.
-/

/-- Raw encoded image bytes (`bytes` in Python), abstracted as a list of
byte values. -/
abbrev Bytes := List Nat

/-- Result of a Python call that may raise: either a value or a raised
exception carrying its message. -/
inductive PyResult (α : Type) where
  | ok : α → PyResult α
  | exn : String → PyResult α
deriving Repr

/-- A `fitz.Rect`: four coordinates. -/
structure Rect where
  x0 : Int
  y0 : Int
  x1 : Int
  y1 : Int
deriving DecidableEq, Repr

/-- Width of a rectangle, as in `fitz.Rect.width` (`abs(x1 - x0)`). -/
def Rect.width (r : Rect) : Int := |r.x1 - r.x0|

/-- Height of a rectangle, as in `fitz.Rect.height` (`abs(y1 - y0)`). -/
def Rect.height (r : Rect) : Int := |r.y1 - r.y0|

/-- Python truthiness of a `fitz.Rect`: `Rect.__bool__` returns
`not (max(self) == min(self) == 0)`, i.e. the rect is falsy exactly when
all four coordinates are zero. -/
def Rect.toBool (r : Rect) : Bool :=
  !(r.x0 == 0 && r.y0 == 0 && r.x1 == 0 && r.y1 == 0)

/-- The `fitz.Rect.is_empty` predicate: width or height is not positive. -/
def Rect.isEmpty (r : Rect) : Bool := r.x1 ≤ r.x0 || r.y1 ≤ r.y0

/-- The sentinel infinite rectangle `fitz.Rect(1, 1, -1, -1)` returned by
`get_image_bbox` for an undetermined placement. -/
def Rect.isInfinite (r : Rect) : Bool :=
  r.x0 == 1 && r.y0 == 1 && r.x1 == -1 && r.y1 == -1

/-- A decoded in-memory bitmap (`PIL.Image`).  `whiteComposite` is a
provenance marker recording that the bitmap was produced by pasting an
image onto an opaque white background (lines 30-32 of the source). -/
structure RawImage where
  mode : String
  width : Nat
  height : Nat
  whiteComposite : Bool
deriving DecidableEq, Repr

/-- The keyword arguments of a `PIL.Image.save` call in this program:
the target format string, the `quality` argument (always passed by the
source), and whether `optimize=True` was passed. -/
structure SaveArgs where
  format : String
  quality : Int
  optimize : Bool
deriving DecidableEq, Repr

/-- The PIL image codec, as an oracle: `decode` is `Image.open` on a byte
buffer, `encode` is `image.save` into a byte buffer with the given
arguments.  Either may raise. -/
structure Codec where
  decode : Bytes → PyResult RawImage
  encode : RawImage → SaveArgs → PyResult Bytes

/-- Spec-side definition ("any color mode that carries alpha"): the PIL
color modes whose band list includes an alpha band are `RGBA`, `LA`,
`PA` and the premultiplied variants `RGBa`, `La`. -/
def modeCarriesAlpha (mode : String) : Bool :=
  mode == "RGBA" || mode == "LA" || mode == "PA" || mode == "RGBa" || mode == "La"

/-- Lines 28-32 of the source: `if image.mode in ('RGBA', 'LA')`, paste
onto a fresh white `RGB` background of the same size; otherwise the
image is left unchanged. -/
def normalizeAlpha (image : RawImage) : RawImage :=
  if image.mode = "RGBA" ∨ image.mode = "LA" then
    { mode := "RGB", width := image.width, height := image.height,
      whiteComposite := true }
  else
    image

/-- Python `str.lower()` on the ASCII format hints this program sees:
each character lower-cased. -/
def lowerStr (s : String) : String := ⟨s.data.map Char.toLower⟩

/-- Python `str.upper()` on the ASCII format hints this program sees:
each character upper-cased. -/
def upperStr (s : String) : String := ⟨s.data.map Char.toUpper⟩

/-- Lines 34-48 of the source: the format dispatch of the three
`image.save` calls, keyed on `image_ext.lower()`.  The `else` branch
passes no `optimize` argument (PIL default `False`). -/
def saveArgsFor (image_ext : String) (image_quality : Int) : SaveArgs :=
  if lowerStr image_ext = "jpg" ∨ lowerStr image_ext = "jpeg" then
    { format := "JPEG", quality := image_quality, optimize := true }
  else if lowerStr image_ext = "png" then
    { format := "PNG", quality := image_quality, optimize := true }
  else
    { format := upperStr image_ext, quality := image_quality, optimize := false }

/-- The `PDFCompressor` object state set up by `__init__` (lines 9-13):
the two paths and the image quality are stored as given, with no
validation or clamping. -/
structure PDFCompressor where
  input_path : String
  output_path : String
  image_quality : Int
deriving DecidableEq, Repr

/-- `PDFCompressor.__init__(input_path, output_path, image_quality)`. -/
def PDFCompressor.init (input_path output_path : String)
    (image_quality : Int) : PDFCompressor :=
  { input_path := input_path, output_path := output_path,
    image_quality := image_quality }

/-- `PDFCompressor.compress_image` (lines 22-55): decode, composite
alpha onto white for modes `RGBA`/`LA`, dispatch the save call on the
format hint; any raised exception is caught and turned into `None`. -/
def PDFCompressor.compress_image (c : PDFCompressor) (codec : Codec)
    (image_bytes : Bytes) (image_ext : String) : Option Bytes :=
  match codec.decode image_bytes with
  | .exn _ => none
  | .ok image0 =>
    match codec.encode (normalizeAlpha image0)
        (saveArgsFor image_ext c.image_quality) with
    | .exn _ => none
    | .ok out => some out

/-- The result of `pdf_document.extract_image(xref)` when it is truthy:
the dict's `"image"` bytes and `"ext"` format string. -/
structure ExtractedImage where
  image : Bytes
  ext : String
deriving DecidableEq, Repr

/-- One entry of `page.get_images(full=True)` together with the library
answers attached to it: `extract` is the `extract_image` result for its
xref (`none` models a falsy dict), `bbox` is what `page.get_image_bbox`
returns for this item. -/
structure ImgEntry where
  extract : Option ExtractedImage
  bbox : Rect
deriving DecidableEq, Repr

/-- One page of the source document: its `page.rect` and its image
list. -/
structure SourcePage where
  rect : Rect
  images : List ImgEntry
deriving DecidableEq, Repr

/-- One page of the output document: created by
`output_pdf.new_page(width=..., height=...)`, then `show_pdf_page`
copies source page `copiedFrom`, then zero or more `insert_image` calls
append to `insertedImages` in order. -/
structure OutputPage where
  width : Int
  height : Int
  copiedFrom : Nat
  insertedImages : List (Rect × Bytes)
deriving DecidableEq, Repr

/-- The external world one `compress_pdf` call runs against: whether the
input path exists, what `fitz.open` yields, the PIL codec, whether
`output_pdf.save` succeeds, and the two `os.path.getsize` answers read
after the save. -/
structure World where
  inputExists : Bool
  sourceDoc : PyResult (List SourcePage)
  codec : Codec
  saveResult : PyResult Unit
  originalSize : Nat
  compressedSize : Nat

/-- `output_page.insert_image(rect, stream=...)`: PyMuPDF raises
`ValueError` when the rectangle is empty or infinite, otherwise the
image is appended to the page. -/
def insert_image (page : OutputPage) (rect : Rect) (stream : Bytes) :
    PyResult OutputPage :=
  if rect.isEmpty || rect.isInfinite then
    .exn "rect must be finite and not empty"
  else
    .ok { page with insertedImages := page.insertedImages ++ [(rect, stream)] }

/-- The body of the inner image loop (lines 82-98) for one image:
extract, recompress, test the bbox for truthiness, insert.  An `exn`
result is an exception propagating out of the loop. -/
def processImage (c : PDFCompressor) (codec : Codec) (outPage : OutputPage)
    (img : ImgEntry) : PyResult OutputPage :=
  match img.extract with
  | none => .ok outPage
  | some base =>
    match c.compress_image codec base.image base.ext with
    | none => .ok outPage
    | some compressed =>
      if img.bbox.toBool then
        insert_image outPage img.bbox compressed
      else
        .ok outPage

/-- The inner image loop over a page's image list; stops at the first
raised exception, returning the page state reached and the exception
message if any. -/
def processImages (c : PDFCompressor) (codec : Codec) (outPage : OutputPage) :
    List ImgEntry → OutputPage × Option String
  | [] => (outPage, none)
  | img :: rest =>
    match processImage c codec outPage img with
    | .exn m => (outPage, some m)
    | .ok p => processImages c codec p rest

/-- The page loop of `compress_pdf` (lines 68-98): for each source page
create an output page with the source page's width and height, copy the
source page's content (`show_pdf_page`), then run the image loop.  The
pages built so far are kept even when an exception aborts the loop. -/
def buildPages (c : PDFCompressor) (codec : Codec) :
    List SourcePage → Nat → List OutputPage × Option String
  | [], _ => ([], none)
  | page :: rest, page_num =>
    match processImages c codec
        { width := page.rect.width, height := page.rect.height,
          copiedFrom := page_num, insertedImages := [] } page.images with
    | (donePage, some m) => ([donePage], some m)
    | (donePage, none) =>
      match buildPages c codec rest (page_num + 1) with
      | (restPages, e) => (donePage :: restPages, e)

/-- The externally observable outcome of one `compress_pdf` call.
`returnValue` is the Python return value; `saved` records whether
`output_pdf.save` completed (i.e. whether an output file now exists);
the `Opened`/`Closed` flags track the two document handles; `report` is
`(original_size, compressed_size, compression_ratio)` when the line-110
computation was reached and succeeded. -/
structure RunResult where
  returnValue : Bool
  outputPages : List OutputPage
  saved : Bool
  sourceOpened : Bool
  outputOpened : Bool
  sourceClosed : Bool
  outputClosed : Bool
  report : Option (Nat × Nat × ℚ)
deriving DecidableEq, Repr

/-- `PDFCompressor.compress_pdf` (lines 57-124).  The whole body is one
`try`: a `FileNotFoundError` for a missing input, an `OpenError` from
`fitz.open`, an exception escaping the page loop, a save failure, and a
`ZeroDivisionError` in the ratio computation all fall to the `except`
handler, which returns `False`.  The two `close()` calls sit at the end
of the `try` block (lines 117-118), after the save and the report. -/
def PDFCompressor.compress_pdf (c : PDFCompressor) (w : World) : RunResult :=
  if w.inputExists = false then
    { returnValue := false, outputPages := [], saved := false,
      sourceOpened := false, outputOpened := false,
      sourceClosed := false, outputClosed := false, report := none }
  else
    match w.sourceDoc with
    | .exn _ =>
      { returnValue := false, outputPages := [], saved := false,
        sourceOpened := false, outputOpened := false,
        sourceClosed := false, outputClosed := false, report := none }
    | .ok pages =>
      match buildPages c w.codec pages 0 with
      | (outPages, some _) =>
        { returnValue := false, outputPages := outPages, saved := false,
          sourceOpened := true, outputOpened := true,
          sourceClosed := false, outputClosed := false, report := none }
      | (outPages, none) =>
        match w.saveResult with
        | .exn _ =>
          { returnValue := false, outputPages := outPages, saved := false,
            sourceOpened := true, outputOpened := true,
            sourceClosed := false, outputClosed := false, report := none }
        | .ok _ =>
          if w.originalSize = 0 then
            { returnValue := false, outputPages := outPages, saved := true,
              sourceOpened := true, outputOpened := true,
              sourceClosed := false, outputClosed := false, report := none }
          else
            { returnValue := true, outputPages := outPages, saved := true,
              sourceOpened := true, outputOpened := true,
              sourceClosed := true, outputClosed := true,
              report := some (w.originalSize, w.compressedSize,
                (1 - (w.compressedSize : ℚ) / (w.originalSize : ℚ)) * 100) }

/-! Concrete fixtures used by witnesses and counterexamples. -/

/-- A plain 8x8 RGB bitmap with no alpha. -/
def rgbImage : RawImage :=
  { mode := "RGB", width := 8, height := 8, whiteComposite := false }

/-- A 4x4 palette-with-alpha (`PA`) bitmap. -/
def paImage : RawImage :=
  { mode := "PA", width := 4, height := 4, whiteComposite := false }

/-- A codec that decodes everything to a plain 8x8 RGB bitmap and whose
encoder always succeeds with the byte `[9]`. -/
def okCodec : Codec :=
  { decode := fun _ => .ok rgbImage, encode := fun _ _ => .ok [9] }

/-- A codec whose decoder always raises, as PIL does on a corrupt
image. -/
def failDecodeCodec : Codec :=
  { decode := fun _ => .exn "cannot identify image file",
    encode := fun _ _ => .ok [9] }

/-- A codec that decodes but whose encoder always raises, as a codec
rejecting the `quality` argument would. -/
def failEncodeCodec : Codec :=
  { decode := fun _ => .ok rgbImage,
    encode := fun _ _ => .exn "quality not supported" }

/-- A compressor built with the default-style arguments. -/
def samplePC : PDFCompressor := PDFCompressor.init "input.pdf" "output.pdf" 30

/-- Two source pages: a Letter-sized page with no images and a smaller
page with one well-placed JPEG image. -/
def c1pages : List SourcePage :=
  [ ⟨⟨0, 0, 612, 792⟩, []⟩,
    ⟨⟨0, 0, 300, 400⟩, [⟨some ⟨[1, 2], "jpg"⟩, ⟨10, 10, 50, 60⟩⟩]⟩ ]

/-- A world in which everything succeeds. -/
def c1world : World :=
  { inputExists := true, sourceDoc := .ok c1pages, codec := okCodec,
    saveResult := .ok (), originalSize := 1000, compressedSize := 600 }

/-- A world in which both documents open and the single page processes,
but `output_pdf.save` raises a write error. -/
def c2world : World :=
  { inputExists := true, sourceDoc := .ok [⟨⟨0, 0, 100, 200⟩, []⟩],
    codec := okCodec, saveResult := .exn "cannot write output",
    originalSize := 1000, compressedSize := 600 }

/-- A world whose only embedded image always fails to decode. -/
def c3world : World :=
  { inputExists := true,
    sourceDoc := .ok [⟨⟨0, 0, 200, 200⟩, [⟨some ⟨[3], "jpg"⟩, ⟨0, 0, 50, 50⟩⟩]⟩],
    codec := failDecodeCodec, saveResult := .ok (),
    originalSize := 500, compressedSize := 400 }

/-- A world whose input path does not exist. -/
def c5world : World :=
  { inputExists := false, sourceDoc := .exn "unreachable", codec := okCodec,
    saveResult := .ok (), originalSize := 500, compressedSize := 400 }

/-- A codec that decodes to a palette-with-alpha (`PA`) bitmap and whose
encoder reports, via its output byte, whether the bitmap it received was
the white-composited one. -/
def c6codec : Codec :=
  { decode := fun _ => .ok paImage,
    encode := fun image _ => .ok (if image.whiteComposite then [1] else [0]) }

/-- A world whose only image has a zero-area placement rectangle that is
not the all-zero rectangle. -/
def c7world : World :=
  { inputExists := true,
    sourceDoc := .ok [⟨⟨0, 0, 100, 100⟩, [⟨some ⟨[7], "jpg"⟩, ⟨5, 5, 5, 5⟩⟩]⟩],
    codec := okCodec, saveResult := .ok (),
    originalSize := 100, compressedSize := 50 }

/-- A world with one empty page and sizes 100 and 50 bytes. -/
def c8world : World :=
  { inputExists := true, sourceDoc := .ok [⟨⟨0, 0, 10, 10⟩, []⟩],
    codec := okCodec, saveResult := .ok (),
    originalSize := 100, compressedSize := 50 }

/-! Helper lemmas about the embedded operations. -/

theorem Rect.toBool_false_iff (r : Rect) : r.toBool = false ↔ r = ⟨0, 0, 0, 0⟩ := by
  cases r with
  | mk a b c d => simp [Rect.toBool, Rect.mk.injEq, and_assoc]

theorem compress_image_of_decode_exn (c : PDFCompressor) (codec : Codec)
    (b : Bytes) (ext : String) (m : String) (h : codec.decode b = .exn m) :
    c.compress_image codec b ext = none := by
  unfold PDFCompressor.compress_image
  rw [h]

theorem compress_image_of_decode_ok (c : PDFCompressor) (codec : Codec)
    (b : Bytes) (ext : String) (im : RawImage) (h : codec.decode b = .ok im) :
    c.compress_image codec b ext =
      match codec.encode (normalizeAlpha im) (saveArgsFor ext c.image_quality) with
      | .ok out => some out
      | .exn _ => none := by
  unfold PDFCompressor.compress_image
  rw [h]
  cases he : codec.encode (normalizeAlpha im) (saveArgsFor ext c.image_quality) <;>
    simp [he]

theorem processImage_ok_geom (c : PDFCompressor) (codec : Codec)
    (outPage : OutputPage) (img : ImgEntry) (p : OutputPage)
    (h : processImage c codec outPage img = .ok p) :
    p.width = outPage.width ∧ p.height = outPage.height ∧
    p.copiedFrom = outPage.copiedFrom := by
  unfold processImage at h
  split at h
  · cases h; exact ⟨rfl, rfl, rfl⟩
  · split at h
    · cases h; exact ⟨rfl, rfl, rfl⟩
    · split at h
      · unfold insert_image at h
        split at h
        · cases h
        · cases h; exact ⟨rfl, rfl, rfl⟩
      · cases h; exact ⟨rfl, rfl, rfl⟩

theorem processImages_geom (c : PDFCompressor) (codec : Codec) :
    ∀ (imgs : List ImgEntry) (outPage : OutputPage),
      ((processImages c codec outPage imgs).1).width = outPage.width ∧
      ((processImages c codec outPage imgs).1).height = outPage.height ∧
      ((processImages c codec outPage imgs).1).copiedFrom = outPage.copiedFrom := by
  intro imgs
  induction imgs with
  | nil => intro outPage; exact ⟨rfl, rfl, rfl⟩
  | cons img rest ih =>
    intro outPage
    simp only [processImages]
    cases hpi : processImage c codec outPage img with
    | exn m => exact ⟨rfl, rfl, rfl⟩
    | ok p =>
      obtain ⟨h1, h2, h3⟩ := processImage_ok_geom c codec outPage img p hpi
      obtain ⟨g1, g2, g3⟩ := ih p
      exact ⟨g1.trans h1, g2.trans h2, g3.trans h3⟩

theorem processImage_skip (c : PDFCompressor) (codec : Codec)
    (outPage : OutputPage) (img : ImgEntry) (base : ExtractedImage)
    (hext : img.extract = some base)
    (hnone : c.compress_image codec base.image base.ext = none) :
    processImage c codec outPage img = .ok outPage := by
  unfold processImage
  rw [hext]
  simp [hnone]

theorem processImage_all_skip (c : PDFCompressor) (codec : Codec)
    (outPage : OutputPage) (img : ImgEntry)
    (hall : ∀ (b : Bytes) (ext : String), c.compress_image codec b ext = none) :
    processImage c codec outPage img = .ok outPage := by
  unfold processImage
  cases img.extract with
  | none => rfl
  | some base => simp [hall]

theorem processImages_all_skip (c : PDFCompressor) (codec : Codec)
    (hall : ∀ (b : Bytes) (ext : String), c.compress_image codec b ext = none) :
    ∀ (imgs : List ImgEntry) (outPage : OutputPage),
      processImages c codec outPage imgs = (outPage, none) := by
  intro imgs
  induction imgs with
  | nil => intro outPage; rfl
  | cons img rest ih =>
    intro outPage
    simp only [processImages]
    rw [processImage_all_skip c codec outPage img hall]
    exact ih outPage

theorem buildPages_all_skip (c : PDFCompressor) (codec : Codec)
    (hall : ∀ (b : Bytes) (ext : String), c.compress_image codec b ext = none) :
    ∀ (pages : List SourcePage) (page_num : Nat),
      (buildPages c codec pages page_num).2 = none := by
  intro pages
  induction pages with
  | nil => intro page_num; rfl
  | cons page rest ih =>
    intro page_num
    simp only [buildPages]
    rw [processImages_all_skip c codec hall]
    cases hb : buildPages c codec rest (page_num + 1) with
    | mk restPages e =>
      have := ih (page_num + 1)
      rw [hb] at this
      simpa using this

theorem buildPages_none_spec (c : PDFCompressor) (codec : Codec) :
    ∀ (pages : List SourcePage) (page_num : Nat) (out : List OutputPage),
      buildPages c codec pages page_num = (out, none) →
      out.length = pages.length ∧
      ∀ (i : Nat) (h1 : i < out.length) (h2 : i < pages.length),
        (out.get ⟨i, h1⟩).width = (pages.get ⟨i, h2⟩).rect.width ∧
        (out.get ⟨i, h1⟩).height = (pages.get ⟨i, h2⟩).rect.height ∧
        (out.get ⟨i, h1⟩).copiedFrom = page_num + i := by
  intro pages
  induction pages with
  | nil =>
    intro page_num out h
    simp only [buildPages, Prod.mk.injEq] at h
    obtain ⟨h1, -⟩ := h
    subst h1
    exact ⟨rfl, fun i h1 h2 => absurd h1 (by simp)⟩
  | cons page rest ih =>
    intro page_num out h
    simp only [buildPages] at h
    cases hpm : processImages c codec
        { width := page.rect.width, height := page.rect.height,
          copiedFrom := page_num, insertedImages := [] } page.images with
    | mk donePage e =>
      rw [hpm] at h
      cases e with
      | some m => simp at h
      | none =>
        cases hb : buildPages c codec rest (page_num + 1) with
        | mk restPages e2 =>
          rw [hb] at h
          simp only [Prod.mk.injEq] at h
          obtain ⟨hout, he2⟩ := h
          subst hout
          subst he2
          obtain ⟨hlen, hspec⟩ := ih (page_num + 1) restPages hb
          have hgeom := processImages_geom c codec page.images
            { width := page.rect.width, height := page.rect.height,
              copiedFrom := page_num, insertedImages := [] }
          rw [hpm] at hgeom
          refine ⟨by simpa using hlen, ?_⟩
          intro i hi1 hi2
          cases i with
          | zero =>
            exact ⟨hgeom.1, hgeom.2.1, by simpa using hgeom.2.2⟩
          | succ j =>
            have hj1 : j < restPages.length := by simpa using hi1
            have hj2 : j < rest.length := by simpa using hi2
            obtain ⟨w1, w2, w3⟩ := hspec j hj1 hj2
            have hred : (donePage :: restPages).get ⟨j + 1, hi1⟩ =
                restPages.get ⟨j, hj1⟩ := rfl
            rw [hred]
            exact ⟨w1, w2, by rw [w3]; omega⟩

theorem compress_pdf_saved_spec (c : PDFCompressor) (w : World)
    (h : (c.compress_pdf w).saved = true) :
    ∃ (pages : List SourcePage) (outPages : List OutputPage),
      w.inputExists = true ∧ w.sourceDoc = .ok pages ∧
      buildPages c w.codec pages 0 = (outPages, none) ∧
      w.saveResult = .ok () ∧
      (c.compress_pdf w).outputPages = outPages := by
  unfold PDFCompressor.compress_pdf at h ⊢
  cases hie : w.inputExists with
  | false => simp [hie] at h
  | true =>
    simp only [Bool.true_eq_false, if_false]
    cases hsd : w.sourceDoc with
    | exn m => simp [hie, hsd] at h
    | ok pages =>
      cases hb : buildPages c w.codec pages 0 with
      | mk outPages e =>
        cases e with
        | some m => simp [hie, hsd, hb] at h
        | none =>
          cases hsv : w.saveResult with
          | exn m => simp [hie, hsd, hb, hsv] at h
          | ok u =>
            refine ⟨pages, outPages, by trivial, rfl, hb, rfl, ?_⟩
            by_cases h0 : w.originalSize = 0
            · simp [hb, h0]
            · simp [hb, h0]

/-! Claim theorems. -/

/-- Claim C1: for every input document that `compress_pdf` processes to a
successful save, the output document has exactly the same number of pages
as the source, page `i` of the output carries the copied content of
source page `i` (order preserved), and each output page was created with
its source counterpart's width and height. -/
theorem c1_pages_preserved (c : PDFCompressor) (w : World)
    (pages : List SourcePage)
    (hsrc : w.sourceDoc = .ok pages)
    (hsaved : (c.compress_pdf w).saved = true) :
    (c.compress_pdf w).outputPages.length = pages.length ∧
    ∀ (i : Nat) (h1 : i < (c.compress_pdf w).outputPages.length)
      (h2 : i < pages.length),
      ((c.compress_pdf w).outputPages.get ⟨i, h1⟩).width =
        (pages.get ⟨i, h2⟩).rect.width ∧
      ((c.compress_pdf w).outputPages.get ⟨i, h1⟩).height =
        (pages.get ⟨i, h2⟩).rect.height ∧
      ((c.compress_pdf w).outputPages.get ⟨i, h1⟩).copiedFrom = i := by
  obtain ⟨pages2, outPages, hie, hsd, hb, hsv, hout⟩ :=
    compress_pdf_saved_spec c w hsaved
  rw [hsrc] at hsd
  injection hsd with hpp
  subst hpp
  obtain ⟨hlen, hspec⟩ := buildPages_none_spec c w.codec pages 0 outPages hb
  rw [hout]
  refine ⟨hlen, ?_⟩
  intro i h1 h2
  obtain ⟨w1, w2, w3⟩ := hspec i h1 h2
  exact ⟨w1, w2, by simpa using w3⟩

/-- Witness for C1: in a world where a two-page document is processed to
a successful save, the output has exactly two pages. -/
theorem c1_witness :
    (samplePC.compress_pdf c1world).outputPages.length = 2 := by
  have h := (c1_pages_preserved samplePC c1world c1pages rfl (by decide)).1
  exact h.trans (by decide)

/-- Claim C2 is contradicted by the code: when `output_pdf.save` raises,
the `except` handler at line 122 returns `False` without ever reaching
the two `close()` calls at lines 117-118, so both the source and the
output document handles are opened but never released on that exit
path. -/
theorem c2_handles_leaked_on_save_failure :
    (samplePC.compress_pdf c2world).returnValue = false ∧
    (samplePC.compress_pdf c2world).sourceOpened = true ∧
    (samplePC.compress_pdf c2world).outputOpened = true ∧
    (samplePC.compress_pdf c2world).sourceClosed = false ∧
    (samplePC.compress_pdf c2world).outputClosed = false := by
  decide

/-- Claim C4: `compress_pdf` is one `try`/`except Exception` block whose
handler returns `False`, embedded here as a total function; every run
ends either in full success (return `True`, document saved, complete
size report) or in failure (return `False`, no report) — there is no
third, partial-success outcome. -/
theorem c4_outcome_dichotomy (c : PDFCompressor) (w : World) :
    ((c.compress_pdf w).returnValue = true ∧ (c.compress_pdf w).saved = true ∧
      ((c.compress_pdf w).report).isSome = true) ∨
    ((c.compress_pdf w).returnValue = false ∧ (c.compress_pdf w).report = none) := by
  unfold PDFCompressor.compress_pdf
  split
  · exact Or.inr ⟨rfl, rfl⟩
  · split
    · exact Or.inr ⟨rfl, rfl⟩
    · split
      · exact Or.inr ⟨rfl, rfl⟩
      · split
        · exact Or.inr ⟨rfl, rfl⟩
        · split
          · exact Or.inr ⟨rfl, rfl⟩
          · exact Or.inl ⟨rfl, rfl, rfl⟩

/-- Claim C5: when the input path does not exist, `compress_pdf` raises
`FileNotFoundError` at line 61 before any document is opened; the
handler returns `False`, no document handle is ever acquired and no
output file is created. -/
theorem c5_missing_input (c : PDFCompressor) (w : World)
    (h : w.inputExists = false) :
    (c.compress_pdf w).returnValue = false ∧
    (c.compress_pdf w).sourceOpened = false ∧
    (c.compress_pdf w).outputOpened = false ∧
    (c.compress_pdf w).saved = false := by
  unfold PDFCompressor.compress_pdf
  rw [h]
  exact ⟨rfl, rfl, rfl, rfl⟩

/-- Witness for C5 at a concrete world whose input path is absent. -/
theorem c5_witness :
    (samplePC.compress_pdf c5world).returnValue = false ∧
    (samplePC.compress_pdf c5world).sourceOpened = false ∧
    (samplePC.compress_pdf c5world).outputOpened = false ∧
    (samplePC.compress_pdf c5world).saved = false :=
  c5_missing_input samplePC c5world rfl

/-- Claim C3: a per-image decode or encode error is caught inside
`compress_image` (line 53) and surfaces as `None` instead of a raised
exception; the caller at line 91 then skips the substitution, leaving
the output page exactly as the full-content copy built it, and a run in
which every image fails this way still returns overall success. -/
theorem c3_image_errors_absorbed (c : PDFCompressor) (codec : Codec) :
    (∀ (b : Bytes) (ext m : String),
      codec.decode b = .exn m → c.compress_image codec b ext = none) ∧
    (∀ (b : Bytes) (ext m : String) (im : RawImage),
      codec.decode b = .ok im →
      codec.encode (normalizeAlpha im) (saveArgsFor ext c.image_quality) = .exn m →
      c.compress_image codec b ext = none) ∧
    (∀ (outPage : OutputPage) (img : ImgEntry) (base : ExtractedImage),
      img.extract = some base →
      c.compress_image codec base.image base.ext = none →
      processImage c codec outPage img = .ok outPage) ∧
    (∀ (w : World) (pages : List SourcePage),
      w.codec = codec → w.inputExists = true → w.sourceDoc = .ok pages →
      w.saveResult = .ok () → w.originalSize ≠ 0 →
      (∀ (b : Bytes) (ext : String), c.compress_image codec b ext = none) →
      (c.compress_pdf w).returnValue = true) := by
  refine ⟨?_, ?_, ?_, ?_⟩
  · intro b ext m hm
    exact compress_image_of_decode_exn c codec b ext m hm
  · intro b ext m im hok henc
    rw [compress_image_of_decode_ok c codec b ext im hok, henc]
  · intro outPage img base hext hnone
    exact processImage_skip c codec outPage img base hext hnone
  · intro w pages hcodec hie hsd hsv h0 hall
    have hall2 : ∀ (b : Bytes) (ext : String),
        c.compress_image w.codec b ext = none := by
      rw [hcodec]; exact hall
    have hb2 := buildPages_all_skip c w.codec hall2 pages 0
    cases hbp : buildPages c w.codec pages 0 with
    | mk outPages e =>
      rw [hbp] at hb2
      simp only [] at hb2
      subst hb2
      unfold PDFCompressor.compress_pdf
      simp [hie, hsd, hbp, hsv, h0]

/-- Witness for C3: the decoder raises on the only image of `c3world`,
`compress_image` returns `None`, and the whole run still succeeds. -/
theorem c3_witness :
    samplePC.compress_image failDecodeCodec [3] "jpg" = none ∧
    (samplePC.compress_pdf c3world).returnValue = true := by
  have h := c3_image_errors_absorbed samplePC failDecodeCodec
  refine ⟨h.1 [3] "jpg" "cannot identify image file" rfl, ?_⟩
  exact h.2.2.2 c3world _ rfl rfl rfl rfl (by decide)
    (fun b ext => h.1 b ext "cannot identify image file" rfl)

/-- Claim C6 is refuted at the PIL mode `PA` (palette with alpha): the
spec-side alpha test `modeCarriesAlpha "PA"` holds, yet the code's
`('RGBA', 'LA')` membership test at line 29 does not fire, so the bitmap
reaches the encoder unchanged and not composited onto white (the probe
codec returns `[1]` exactly when the bitmap it receives is
white-composited, and it returns `[0]` here). -/
theorem c6_pa_mode_not_composited :
    modeCarriesAlpha "PA" = true ∧
    normalizeAlpha paImage = paImage ∧
    samplePC.compress_image c6codec [0] "png" = some [0] := by
  refine ⟨by decide, by decide, by decide⟩

/-- Claim C6 amended: compositing onto an opaque white background
happens exactly for the decoded modes `RGBA` and `LA`; every other mode,
including the alpha-carrying modes `PA`, `RGBa` and `La`, is passed to
the encoder unchanged.  The bitmap handed to the save call is always
`normalizeAlpha` of the decoded bitmap. -/
theorem c6_alpha_flatten_rgba_la_only (image : RawImage) :
    ((image.mode = "RGBA" ∨ image.mode = "LA") →
      normalizeAlpha image =
        { mode := "RGB", width := image.width, height := image.height,
          whiteComposite := true }) ∧
    (¬(image.mode = "RGBA" ∨ image.mode = "LA") → normalizeAlpha image = image) ∧
    (∀ (c : PDFCompressor) (codec : Codec) (b : Bytes) (ext : String),
      codec.decode b = .ok image →
      c.compress_image codec b ext =
        match codec.encode (normalizeAlpha image)
            (saveArgsFor ext c.image_quality) with
        | .ok out => some out
        | .exn _ => none) := by
  refine ⟨?_, ?_, ?_⟩
  · intro hm; unfold normalizeAlpha; rw [if_pos hm]
  · intro hm; unfold normalizeAlpha; rw [if_neg hm]
  · intro c codec b ext hdec
    exact compress_image_of_decode_ok c codec b ext image hdec

/-- Witness for the amended C6 at concrete bitmaps: an `RGBA` bitmap is
flattened to white-composited `RGB`, a `P` (no alpha) bitmap passes
through unchanged, and a decoded `RGB` bitmap is encoded as-is. -/
theorem c6_amended_witness :
    normalizeAlpha { mode := "RGBA", width := 2, height := 3, whiteComposite := false } =
      { mode := "RGB", width := 2, height := 3, whiteComposite := true } ∧
    normalizeAlpha { mode := "P", width := 2, height := 3, whiteComposite := false } =
      { mode := "P", width := 2, height := 3, whiteComposite := false } ∧
    samplePC.compress_image okCodec [5] "jpg" = some [9] := by
  refine ⟨(c6_alpha_flatten_rgba_la_only _).1 (Or.inl rfl),
    (c6_alpha_flatten_rgba_la_only _).2.1 (by decide), ?_⟩
  rw [(c6_alpha_flatten_rgba_la_only rgbImage).2.2 samplePC okCodec [5] "jpg" rfl]
  rfl

/-- Claim C7 is refuted: the guard `if image_rect:` at line 94 skips only
the all-zero rectangle (the single falsy `fitz.Rect`); the zero-area
rectangle `Rect(5, 5, 5, 5)` is truthy, reaches `insert_image`, which
raises on an empty rect, and the exception aborts the whole run —
`compress_pdf` returns failure and nothing is saved, instead of skipping
the insertion and continuing. -/
theorem c7_degenerate_bbox_aborts :
    Rect.isEmpty ⟨5, 5, 5, 5⟩ = true ∧
    Rect.toBool ⟨5, 5, 5, 5⟩ = true ∧
    (samplePC.compress_pdf c7world).returnValue = false ∧
    (samplePC.compress_pdf c7world).saved = false ∧
    (samplePC.compress_pdf c7world).outputPages =
      [{ width := 100, height := 100, copiedFrom := 0, insertedImages := [] }] := by
  refine ⟨by decide, by decide, by decide, by decide, by decide⟩

/-- Claim C7 amended: the insertion of a recompressed image is skipped
(and processing continues) only when its bbox is the all-zero rectangle,
the single falsy `fitz.Rect`; any other empty-or-infinite bbox reaches
`insert_image`, which raises, so the image loop aborts with the
exception and the operation fails. -/
theorem c7_amended_only_zero_rect_skipped (c : PDFCompressor) (codec : Codec)
    (outPage : OutputPage) (img : ImgEntry) (base : ExtractedImage) (cb : Bytes)
    (hext : img.extract = some base)
    (hcomp : c.compress_image codec base.image base.ext = some cb) :
    (img.bbox = ⟨0, 0, 0, 0⟩ → processImage c codec outPage img = .ok outPage) ∧
    (img.bbox ≠ ⟨0, 0, 0, 0⟩ → (img.bbox.isEmpty || img.bbox.isInfinite) = true →
      ∀ (rest : List ImgEntry),
        processImages c codec outPage (img :: rest) =
          (outPage, some "rect must be finite and not empty")) := by
  constructor
  · intro hzero
    unfold processImage
    rw [hext]
    simp [hcomp, hzero, Rect.toBool]
  · intro hne hdeg rest
    have htb : img.bbox.toBool = true := by
      cases htb2 : img.bbox.toBool
      · exact absurd ((Rect.toBool_false_iff img.bbox).1 htb2) hne
      · rfl
    have hpi : processImage c codec outPage img =
        .exn "rect must be finite and not empty" := by
      unfold processImage
      rw [hext]
      simp [hcomp, htb, insert_image, hdeg]
    simp only [processImages]
    rw [hpi]

/-- Witness for the amended C7: with the all-zero bbox the image is
skipped and processing continues; with the empty bbox `Rect(5,5,5,5)`
the image loop aborts with the `insert_image` exception. -/
theorem c7_amended_witness :
    processImage samplePC okCodec
      { width := 100, height := 100, copiedFrom := 0, insertedImages := [] }
      { extract := some { image := [7], ext := "jpg" }, bbox := ⟨0, 0, 0, 0⟩ } =
      .ok { width := 100, height := 100, copiedFrom := 0, insertedImages := [] } ∧
    processImages samplePC okCodec
      { width := 100, height := 100, copiedFrom := 0, insertedImages := [] }
      [{ extract := some { image := [7], ext := "jpg" }, bbox := ⟨5, 5, 5, 5⟩ }] =
      ({ width := 100, height := 100, copiedFrom := 0, insertedImages := [] },
        some "rect must be finite and not empty") := by
  constructor
  · exact (c7_amended_only_zero_rect_skipped samplePC okCodec _ _ _ [9] rfl rfl).1 rfl
  · exact (c7_amended_only_zero_rect_skipped samplePC okCodec _ _ _ [9] rfl rfl).2
      (by decide) (by decide) []

/-- Claim C8: whenever `compress_pdf` returns success, the report built
at lines 107-110 carries the two byte sizes read from storage after the
save and the ratio `(1 - compressedSize/originalSize) * 100`. -/
theorem c8_report_formula (c : PDFCompressor) (w : World)
    (h : (c.compress_pdf w).returnValue = true) :
    (c.compress_pdf w).report =
      some (w.originalSize, w.compressedSize,
        (1 - (w.compressedSize : ℚ) / (w.originalSize : ℚ)) * 100) := by
  unfold PDFCompressor.compress_pdf at h ⊢
  cases hie : w.inputExists with
  | false => simp [hie] at h
  | true =>
    simp only [Bool.true_eq_false, if_false]
    cases hsd : w.sourceDoc with
    | exn m => simp [hie, hsd] at h
    | ok pages =>
      cases hb : buildPages c w.codec pages 0 with
      | mk outPages e =>
        cases e with
        | some m => simp [hie, hsd, hb] at h
        | none =>
          cases hsv : w.saveResult with
          | exn m => simp [hie, hsd, hb, hsv] at h
          | ok u =>
            by_cases h0 : w.originalSize = 0
            · simp [hie, hsd, hb, hsv, h0] at h
            · simp [hb, h0]

/-- Witness for C8: sizes 100 and 50 yield the reported ratio
`(1 - 50/100) * 100`. -/
theorem c8_witness :
    (samplePC.compress_pdf c8world).report =
      some (100, 50, (1 - (50 : ℚ) / (100 : ℚ)) * 100) :=
  c8_report_formula samplePC c8world (by decide)

/-- Claim C9: the save call is dispatched on the lower-cased format
hint — `jpg`/`jpeg` encode as JPEG with the configured quality and
`optimize=True`; `png` encodes as PNG with `optimize=True` and the
quality still passed; any other hint encodes under the upper-cased
format name with the quality passed uniformly, and an encoder rejecting
it is a failure for that image only (`None`). -/
theorem c9_format_dispatch (ext : String) (q : Int) :
    ((lowerStr ext = "jpg" ∨ lowerStr ext = "jpeg") →
      saveArgsFor ext q = { format := "JPEG", quality := q, optimize := true }) ∧
    (lowerStr ext = "png" →
      saveArgsFor ext q = { format := "PNG", quality := q, optimize := true }) ∧
    (lowerStr ext ≠ "jpg" → lowerStr ext ≠ "jpeg" → lowerStr ext ≠ "png" →
      saveArgsFor ext q = { format := upperStr ext, quality := q, optimize := false }) ∧
    (∀ (c : PDFCompressor) (codec : Codec) (b : Bytes) (im : RawImage) (m : String),
      c.image_quality = q → codec.decode b = .ok im →
      codec.encode (normalizeAlpha im) (saveArgsFor ext q) = .exn m →
      c.compress_image codec b ext = none) := by
  refine ⟨?_, ?_, ?_, ?_⟩
  · intro hj
    unfold saveArgsFor
    rw [if_pos hj]
  · intro hp
    have hnj : ¬(lowerStr ext = "jpg" ∨ lowerStr ext = "jpeg") := by
      rw [hp]; decide
    unfold saveArgsFor
    rw [if_neg hnj, if_pos hp]
  · intro h1 h2 h3
    unfold saveArgsFor
    rw [if_neg (not_or.mpr ⟨h1, h2⟩), if_neg h3]
  · intro c codec b im m hq hdec henc
    rw [compress_image_of_decode_ok c codec b ext im hdec, hq, henc]

/-- Witness for C9: the dispatch at concrete hints, including an
upper-cased and a mixed-case one, and a per-image failure from an
encoder that rejects the arguments. -/
theorem c9_witness :
    saveArgsFor "JPG" 30 = { format := "JPEG", quality := 30, optimize := true } ∧
    saveArgsFor "PnG" 30 = { format := "PNG", quality := 30, optimize := true } ∧
    saveArgsFor "bmp" 30 = { format := "BMP", quality := 30, optimize := false } ∧
    samplePC.compress_image failEncodeCodec [1] "bmp" = none := by
  refine ⟨(c9_format_dispatch "JPG" 30).1 (Or.inl (by decide)),
    (c9_format_dispatch "PnG" 30).2.1 (by decide), ?_,
    (c9_format_dispatch "bmp" 30).2.2.2 samplePC failEncodeCodec [1] rgbImage
      "quality not supported" rfl rfl rfl⟩
  rw [(c9_format_dispatch "bmp" 30).2.2.1 (by decide) (by decide) (by decide)]
  decide

/-- Claim C10: `__init__` stores any integer quality unchanged — no
validation or clamping, even far outside 1..100 — and that stored value
is the `quality` argument of every encode call in all three dispatch
branches; an encoder rejecting it surfaces only as a per-image `None`. -/
theorem c10_quality_stored_verbatim (i o : String) (q : Int) :
    (PDFCompressor.init i o q).image_quality = q ∧
    (∀ ext : String, (saveArgsFor ext q).quality = q) ∧
    (∀ (codec : Codec) (b : Bytes) (ext : String) (im : RawImage) (m : String),
      codec.decode b = .ok im →
      codec.encode (normalizeAlpha im) (saveArgsFor ext q) = .exn m →
      (PDFCompressor.init i o q).compress_image codec b ext = none) := by
  refine ⟨rfl, ?_, ?_⟩
  · intro ext
    unfold saveArgsFor
    split
    · rfl
    · split
      · rfl
      · rfl
  · intro codec b ext im m hdec henc
    rw [compress_image_of_decode_ok (PDFCompressor.init i o q) codec b ext im hdec]
    simp only [PDFCompressor.init]
    rw [henc]

/-- Witness for C10 at the out-of-range quality 999. -/
theorem c10_witness :
    (PDFCompressor.init "a.pdf" "b.pdf" 999).image_quality = 999 ∧
    (saveArgsFor "jpg" 999).quality = 999 ∧
    (PDFCompressor.init "a.pdf" "b.pdf" 999).compress_image
      failEncodeCodec [1] "jpg" = none :=
  ⟨(c10_quality_stored_verbatim "a.pdf" "b.pdf" 999).1,
    (c10_quality_stored_verbatim "a.pdf" "b.pdf" 999).2.1 "jpg",
    (c10_quality_stored_verbatim "a.pdf" "b.pdf" 999).2.2 failEncodeCodec [1] "jpg"
      rgbImage "quality not supported" rfl rfl⟩
